import Mathlib

/-!
Verification of the batch embedding adapter (`VoyageAIEmbeddings` in
`libs/partners/voyageai/langchain_voyageai/embeddings.py`) and the
configuration resolution of `AI21Base`
(`libs/partners/ai21/langchain_ai21/ai21_base.py`).

The embedding is shallow: the Python functions are translated into pure
Lean functions.  The remote client (`self._client.embed` /
`self._aclient.embed`) is injected as a function argument of type
`EmbedRequest → Except ε (List α)`, where `α` is the (abstract) type of a
single embedding vector.  Each call to the client is recorded in a trace,
so that the number and order of remote calls is observable.  Python
exceptions are modelled with `Except`.
-/

namespace LangchainVoyageAI

/-- Length of Python `range(start, stop, step)` for a nonzero `step`
(number of produced elements). -/
def pyRangeLen (start stop step : Int) : Nat :=
  if 0 < step then ((stop - start).toNat + step.toNat - 1) / step.toNat
  else ((start - stop).toNat + (-step).toNat - 1) / (-step).toNat

/-- Python `range(start, stop, step)`: raises `ValueError` when `step = 0`,
otherwise produces `start, start+step, ...` while strictly before `stop`
in the direction of `step`. -/
def pyRange (start stop step : Int) : Except String (List Int) :=
  if step = 0 then Except.error "range() arg 3 must not be zero"
  else Except.ok ((List.range (pyRangeLen start stop step)).map
    (fun k => start + step * Int.ofNat k))

/-- Python slice `l[i : j]` for nonnegative bounds (the only case that can
occur here: slice indices come from `pyRange 0 _ step` with `0 < step`). -/
def pySlice (l : List β) (i j : Int) : List β :=
  (l.drop i.toNat).take (j.toNat - i.toNat)

/-- Configuration of `VoyageAIEmbeddings` held at construction
(the credential and client objects are injected separately). -/
structure VoyageAIEmbeddings where
  model : String
  batch_size : Int
  show_progress_bar : Bool := false
  truncation : Option Bool := none
deriving DecidableEq

/-- One request to the remote embedding endpoint: the arguments of
`self._client.embed(...)` / `self._aclient.embed(...)`. -/
structure EmbedRequest where
  texts : List String
  model : String
  input_type : String
  truncation : Option Bool
deriving DecidableEq

/-- Errors the adapter can surface: a missing optional dependency
(`ImportError`), a `ValueError` from `range`, an error of the remote
client propagated unmodified, or an `IndexError` from `embeddings[0]`. -/
inductive EmbedError (ε : Type) where
  | importError (msg : String)
  | valueError (msg : String)
  | clientError (e : ε)
  | indexError
deriving DecidableEq

/-- The `ImportError` message of `_get_batch_iterator`. -/
def tqdmMsg : String :=
  "Must have tqdm installed if `show_progress_bar` is set to True. Please install with `pip install tqdm`."

/-- `VoyageAIEmbeddings._get_batch_iterator`.  `tqdmAvailable` models
whether `from tqdm.auto import tqdm` succeeds; the `tqdm` wrapper yields
exactly the elements of the wrapped `range`, so the produced iterator is
the index list itself in both branches. -/
def get_batch_iterator (E : VoyageAIEmbeddings) (tqdmAvailable : Bool)
    (texts : List String) : Except (EmbedError ε) (List Int) :=
  if E.show_progress_bar then
    if tqdmAvailable then
      match pyRange 0 (texts.length : Int) E.batch_size with
      | Except.error m => Except.error (EmbedError.valueError m)
      | Except.ok l => Except.ok l
    else Except.error (EmbedError.importError tqdmMsg)
  else
    match pyRange 0 (texts.length : Int) E.batch_size with
    | Except.error m => Except.error (EmbedError.valueError m)
    | Except.ok l => Except.ok l

/-- The request issued for loop index `i`:
`self._client.embed(texts[i : i + self.batch_size], model=self.model,
input_type="document", truncation=self.truncation)`. -/
def mkReq (E : VoyageAIEmbeddings) (texts : List String) (i : Int) :
    EmbedRequest :=
  { texts := pySlice texts i (i + E.batch_size), model := E.model,
    input_type := "document", truncation := E.truncation }

/-- The `for i in _iter` loop of `embed_documents`: issues one client call
per index, extends the accumulator with the returned vectors, records each
issued request, and stops at the first client error, which is propagated
unmodified. -/
def embedChunks (E : VoyageAIEmbeddings)
    (client : EmbedRequest → Except ε (List α)) (texts : List String) :
    List Int → List EmbedRequest → List α →
    Except (EmbedError ε) (List α) × List EmbedRequest
  | [], trace, acc => (Except.ok acc, trace)
  | i :: rest, trace, acc =>
    match client (mkReq E texts i) with
    | Except.error e =>
      (Except.error (EmbedError.clientError e), trace ++ [mkReq E texts i])
    | Except.ok vs =>
      embedChunks E client texts rest (trace ++ [mkReq E texts i]) (acc ++ vs)

/-- `VoyageAIEmbeddings.embed_documents`, with the blocking client injected
and the issued remote calls recorded in order in the second component. -/
def embed_documents (E : VoyageAIEmbeddings)
    (client : EmbedRequest → Except ε (List α)) (tqdmAvailable : Bool)
    (texts : List String) :
    Except (EmbedError ε) (List α) × List EmbedRequest :=
  match get_batch_iterator E tqdmAvailable texts with
  | Except.error e => (Except.error e, [])
  | Except.ok idxs => embedChunks E client texts idxs [] []

/-- The `for i in _iter` loop of `aembed_documents`: the awaited call
`r = await self._aclient.embed(...)` completes before
`embeddings.extend(r.embeddings)` runs and before the next index is
processed, so the loop is the same sequential recursion. -/
def aembedChunks (E : VoyageAIEmbeddings)
    (aclient : EmbedRequest → Except ε (List α)) (texts : List String) :
    List Int → List EmbedRequest → List α →
    Except (EmbedError ε) (List α) × List EmbedRequest
  | [], trace, acc => (Except.ok acc, trace)
  | i :: rest, trace, acc =>
    match aclient (mkReq E texts i) with
    | Except.error e =>
      (Except.error (EmbedError.clientError e), trace ++ [mkReq E texts i])
    | Except.ok r =>
      aembedChunks E aclient texts rest (trace ++ [mkReq E texts i]) (acc ++ r)

/-- `VoyageAIEmbeddings.aembed_documents`, with the async client injected. -/
def aembed_documents (E : VoyageAIEmbeddings)
    (aclient : EmbedRequest → Except ε (List α)) (tqdmAvailable : Bool)
    (texts : List String) :
    Except (EmbedError ε) (List α) × List EmbedRequest :=
  match get_batch_iterator E tqdmAvailable texts with
  | Except.error e => (Except.error e, [])
  | Except.ok idxs => aembedChunks E aclient texts idxs [] []

/-- `VoyageAIEmbeddings.embed_query`: a single client call on `[text]` with
`input_type="query"`, returning `.embeddings[0]` (an `IndexError` if the
client returned no vectors). -/
def embed_query (E : VoyageAIEmbeddings)
    (client : EmbedRequest → Except ε (List α)) (text : String) :
    Except (EmbedError ε) α :=
  match client { texts := [text], model := E.model, input_type := "query",
                 truncation := E.truncation } with
  | Except.error e => Except.error (EmbedError.clientError e)
  | Except.ok [] => Except.error EmbedError.indexError
  | Except.ok (v :: _) => Except.ok v

/-- `VoyageAIEmbeddings.default_values` (a pre `root_validator`): when no
`batch_size` was supplied, it is set to `72 if model in ["voyage-2",
"voyage-02"] else 7`; an explicitly supplied value is kept. -/
def default_values (model : Option String) (batch_size : Option Int) :
    Option Int :=
  match batch_size with
  | none => some (if model = some "voyage-2" ∨ model = some "voyage-02"
                  then 72 else 7)
  | some b => some b

/-! Specification-side descriptions of the chunking, used to state the
theorems; the theorems prove the source functions equal to them. -/

/-- `⌈n / B⌉` for `B ≥ 1`, as `(n + B - 1) / B`. -/
def numChunks (n B : Nat) : Nat := (n + B - 1) / B

/-- The contiguous chunks `l[B*k : B*k + B]` in original order. -/
def chunkList (B : Nat) (l : List γ) : List (List γ) :=
  (List.range (numChunks l.length B)).map (fun k => (l.drop (B * k)).take B)

/-- The sequence of requests `embed_documents` issues for `texts`, one per
chunk, in chunk order. -/
def chunkReqs (E : VoyageAIEmbeddings) (texts : List String) :
    List EmbedRequest :=
  (chunkList E.batch_size.toNat texts).map
    (fun c => { texts := c, model := E.model, input_type := "document",
                truncation := E.truncation })

end LangchainVoyageAI

namespace LangchainAI21

/-- `_DEFAULT_TIMEOUT_SEC = 300` (`ai21_base.py`). -/
def _DEFAULT_TIMEOUT_SEC : ℚ := 300

/-- Python `a or b` where `a` is an optional string (`values.get(...)` or
`os.getenv(...)`): `a` is kept only when it is truthy (present and
non-empty). -/
def strOr (a : Option String) (b : String) : String :=
  match a with
  | some s => if s = "" then b else s
  | none => b

/-- Python `a or b` where `a` is an optional number: `a` is kept only when
it is truthy (present and nonzero). -/
def ratOr (a : Option ℚ) (b : ℚ) : ℚ :=
  match a with
  | some t => if t = 0 then b else t
  | none => b

/-- `AI21Base.validate_environment` resolution of `api_key`:
`convert_to_secret_str(values.get("api_key") or os.getenv("AI21_API_KEY")
or "")`.  `explicit` is the constructor argument, `env` the value of the
`AI21_API_KEY` environment variable. -/
def resolve_api_key (explicit env : Option String) : String :=
  strOr explicit (strOr env "")

/-- `AI21Base.validate_environment` resolution of `api_host`:
`values.get("api_host") or os.getenv("AI21_API_URL") or
"https://api.ai21.com"`. -/
def resolve_api_host (explicit env : Option String) : String :=
  strOr explicit (strOr env "https://api.ai21.com")

/-- `AI21Base.validate_environment` resolution of `timeout_sec`:
`values.get("timeout_sec") or float(os.getenv("AI21_TIMEOUT_SEC",
_DEFAULT_TIMEOUT_SEC))`.  `env` models the parsed float value of the
environment variable when it is set; note the environment value is the
second operand of `or`, so it is returned whether or not it is truthy. -/
def resolve_timeout_sec (explicit env : Option ℚ) : ℚ :=
  ratOr explicit (match env with
                  | some e => e
                  | none => _DEFAULT_TIMEOUT_SEC)

/-- `num_retries` in `AI21Base`: declared as a field but never touched by
`validate_environment` — no environment variable is consulted and no
default is substituted; the value stays exactly as passed. -/
def resolve_num_retries (explicit : Option Int) : Option Int := explicit

end LangchainAI21

namespace LangchainVoyageAI

/-! Auxiliary lemmas about the chunking arithmetic. -/

theorem numChunks_zero (B : Nat) (hB : 1 ≤ B) : numChunks 0 B = 0 := by
  unfold numChunks
  exact Nat.div_eq_of_lt (by omega)

theorem numChunks_succ (n B : Nat) (hB : 1 ≤ B) (hn : 1 ≤ n) :
    numChunks n B = numChunks (n - B) B + 1 := by
  unfold numChunks
  have e1 : n + B - 1 = (n - 1) + B := by omega
  rw [e1, Nat.add_div_right _ hB]
  rcases Nat.lt_or_ge B n with h | h
  · have e2 : n - B + B - 1 = n - 1 := by omega
    rw [e2]
  · have e2 : n - B = 0 := by omega
    rw [e2]
    have d1 : (n - 1) / B = 0 := Nat.div_eq_of_lt (by omega)
    have d2 : (0 + B - 1) / B = 0 := Nat.div_eq_of_lt (by omega)
    rw [d1, d2]

theorem numChunks_ne_zero (n B : Nat) (hB : 1 ≤ B) (hn : 1 ≤ n) :
    numChunks n B ≠ 0 := by
  rw [numChunks_succ n B hB hn]
  exact Nat.succ_ne_zero _

/-- Concatenating the chunks `l[B*k : B*k + B]`, `k < ⌈len/B⌉`, recovers
the original list. -/
theorem flatten_chunkList (B : Nat) (hB : 1 ≤ B) (l : List γ) :
    (chunkList B l).flatten = l := by
  unfold chunkList
  generalize hm : numChunks l.length B = m
  induction m generalizing l with
  | zero =>
    have hlen : l.length = 0 := by
      by_contra hne
      exact numChunks_ne_zero l.length B hB (by omega) hm
    simp [List.eq_nil_of_length_eq_zero hlen]
  | succ m ih =>
    have hl : 1 ≤ l.length := by
      by_contra hne
      have h0 : l.length = 0 := by omega
      rw [h0, numChunks_zero B hB] at hm
      exact Nat.succ_ne_zero m hm.symm
    have hrec : numChunks (l.drop B).length B = m := by
      rw [List.length_drop]
      have := numChunks_succ l.length B hB hl
      omega
    rw [List.range_succ_eq_map, List.map_cons, List.flatten_cons,
        Nat.mul_zero, List.drop_zero, List.map_map]
    have hcomp : ((fun k => (l.drop (B * k)).take B) ∘ Nat.succ)
        = fun k => ((l.drop B).drop (B * k)).take B := by
      funext k
      simp only [Function.comp]
      rw [List.drop_drop]
      have hmul : B * Nat.succ k = B + B * k := by
        rw [Nat.mul_succ, Nat.add_comm]
      rw [hmul]
    rw [hcomp, ih (l.drop B) hrec, List.take_append_drop]

theorem chunkList_length (B : Nat) (l : List γ) :
    (chunkList B l).length = numChunks l.length B := by
  unfold chunkList
  rw [List.length_map, List.length_range]

/-! Reduction of `get_batch_iterator` and the chunk loop. -/

theorem pySlice_natCast (l : List β) (i B : Nat) :
    pySlice l (i : Int) ((i : Int) + (B : Int)) = (l.drop i).take B := by
  unfold pySlice
  have h1 : ((i : Int)).toNat = i := Int.toNat_natCast i
  have h2 : ((i : Int) + (B : Int)).toNat = i + B := by
    rw [← Nat.cast_add, Int.toNat_natCast]
  rw [h1, h2]
  congr 1
  omega

theorem mkReq_natCast (E : VoyageAIEmbeddings) (texts : List String)
    (k : Nat) (hB : 0 < E.batch_size) :
    mkReq E texts ((E.batch_size.toNat * k : Nat) : Int)
      = { texts := (texts.drop (E.batch_size.toNat * k)).take E.batch_size.toNat,
          model := E.model, input_type := "document",
          truncation := E.truncation } := by
  unfold mkReq
  have hcast : (E.batch_size.toNat : Int) = E.batch_size :=
    Int.toNat_of_nonneg (Int.le_of_lt hB)
  have : ((E.batch_size.toNat * k : Nat) : Int) + E.batch_size
      = ((E.batch_size.toNat * k : Nat) : Int) + (E.batch_size.toNat : Int) := by
    rw [hcast]
  rw [this, pySlice_natCast]

theorem get_batch_iterator_pos (E : VoyageAIEmbeddings) (tqA : Bool)
    (texts : List String) (hB : 0 < E.batch_size)
    (hpb : E.show_progress_bar = false ∨ tqA = true) :
    (get_batch_iterator E tqA texts : Except (EmbedError ε) (List Int))
      = Except.ok ((List.range (numChunks texts.length E.batch_size.toNat)).map
          (fun k => ((E.batch_size.toNat * k : Nat) : Int))) := by
  have hne : E.batch_size ≠ 0 := by omega
  have hlen : pyRangeLen 0 (texts.length : Int) E.batch_size
      = numChunks texts.length E.batch_size.toNat := by
    unfold pyRangeLen numChunks
    rw [if_pos hB]
    have harg : ((texts.length : Int) - 0).toNat = texts.length := by omega
    rw [harg]
  have helem : (fun k : Nat => (0 : Int) + E.batch_size * Int.ofNat k)
      = fun k : Nat => ((E.batch_size.toNat * k : Nat) : Int) := by
    funext k
    have hcast : (E.batch_size.toNat : Int) = E.batch_size :=
      Int.toNat_of_nonneg (Int.le_of_lt hB)
    rw [Int.ofNat_eq_natCast]
    push_cast
    rw [hcast]
    ring
  have hrange : pyRange 0 (texts.length : Int) E.batch_size
      = Except.ok ((List.range (numChunks texts.length E.batch_size.toNat)).map
          (fun k => ((E.batch_size.toNat * k : Nat) : Int))) := by
    unfold pyRange
    rw [if_neg hne, hlen, helem]
  unfold get_batch_iterator
  rw [hrange]
  rcases hpb with h | h
  · rw [h]
    simp
  · rw [h]
    by_cases hsp : E.show_progress_bar <;> simp [hsp]

/-- The chunk loop when every client call succeeds with `F` applied to the
request: the result is the accumulated concatenation and the trace records
one request per index, in order. -/
theorem embedChunks_ok {ε : Type} (E : VoyageAIEmbeddings)
    (F : EmbedRequest → List α) (texts : List String) (idxs : List Int)
    (trace : List EmbedRequest) (acc : List α) :
    embedChunks E (fun r => (Except.ok (F r) : Except ε (List α))) texts idxs
        trace acc
      = (Except.ok (acc ++ (idxs.map (fun i => F (mkReq E texts i))).flatten),
         trace ++ idxs.map (mkReq E texts)) := by
  induction idxs generalizing trace acc with
  | nil => simp [embedChunks]
  | cons i rest ih =>
    simp only [embedChunks, List.map_cons, List.flatten_cons]
    rw [ih]
    simp [List.append_assoc]

theorem embed_documents_ok_iter {ε α : Type} (E : VoyageAIEmbeddings)
    (client : EmbedRequest → Except ε (List α)) (tqA : Bool)
    (texts : List String) (idxs : List Int)
    (h : (get_batch_iterator E tqA texts : Except (EmbedError ε) (List Int))
          = Except.ok idxs) :
    embed_documents E client tqA texts = embedChunks E client texts idxs [] [] := by
  unfold embed_documents
  rw [h]

theorem embed_documents_err_iter {ε α : Type} (E : VoyageAIEmbeddings)
    (client : EmbedRequest → Except ε (List α)) (tqA : Bool)
    (texts : List String) (e : EmbedError ε)
    (h : (get_batch_iterator E tqA texts : Except (EmbedError ε) (List Int))
          = Except.error e) :
    embed_documents E client tqA texts = (Except.error e, []) := by
  unfold embed_documents
  rw [h]

theorem aembed_documents_ok_iter {ε α : Type} (E : VoyageAIEmbeddings)
    (aclient : EmbedRequest → Except ε (List α)) (tqA : Bool)
    (texts : List String) (idxs : List Int)
    (h : (get_batch_iterator E tqA texts : Except (EmbedError ε) (List Int))
          = Except.ok idxs) :
    aembed_documents E aclient tqA texts
      = aembedChunks E aclient texts idxs [] [] := by
  unfold aembed_documents
  rw [h]

theorem aembed_documents_err_iter {ε α : Type} (E : VoyageAIEmbeddings)
    (aclient : EmbedRequest → Except ε (List α)) (tqA : Bool)
    (texts : List String) (e : EmbedError ε)
    (h : (get_batch_iterator E tqA texts : Except (EmbedError ε) (List Int))
          = Except.error e) :
    aembed_documents E aclient tqA texts = (Except.error e, []) := by
  unfold aembed_documents
  rw [h]

theorem map_mkReq_range (E : VoyageAIEmbeddings) (texts : List String)
    (hB : 0 < E.batch_size) :
    ((List.range (numChunks texts.length E.batch_size.toNat)).map
        (fun k => ((E.batch_size.toNat * k : Nat) : Int))).map (mkReq E texts)
      = chunkReqs E texts := by
  unfold chunkReqs chunkList
  rw [List.map_map, List.map_map]
  apply List.map_congr_left
  intro k _
  simp only [Function.comp]
  rw [mkReq_natCast E texts k hB]

theorem map_texts_chunkReqs (E : VoyageAIEmbeddings) (texts : List String) :
    (chunkReqs E texts).map EmbedRequest.texts
      = chunkList E.batch_size.toNat texts := by
  unfold chunkReqs
  rw [List.map_map]
  exact List.map_id _

theorem chunkReqs_length (E : VoyageAIEmbeddings) (texts : List String) :
    (chunkReqs E texts).length = numChunks texts.length E.batch_size.toNat := by
  unfold chunkReqs
  rw [List.length_map, chunkList_length]

/-- `embed_documents` under a pointwise client stub `g`: the result is
`texts.map g` and the trace is exactly the chunk requests. -/
theorem embed_documents_pointwise {ε α : Type} (E : VoyageAIEmbeddings)
    (g : String → α) (tqA : Bool) (texts : List String)
    (hB : 1 ≤ E.batch_size)
    (hpb : E.show_progress_bar = false ∨ tqA = true) :
    embed_documents E
        (fun r => (Except.ok (r.texts.map g) : Except ε (List α))) tqA texts
      = (Except.ok (texts.map g), chunkReqs E texts) := by
  have hB0 : 0 < E.batch_size := hB
  have hBn : 1 ≤ E.batch_size.toNat := by omega
  rw [embed_documents_ok_iter E _ tqA texts _
        (get_batch_iterator_pos E tqA texts hB0 hpb)]
  rw [embedChunks_ok E (fun r => r.texts.map g) texts _ [] []]
  rw [List.nil_append, List.nil_append, map_mkReq_range E texts hB0]
  have hres : (((List.range (numChunks texts.length E.batch_size.toNat)).map
        (fun k => ((E.batch_size.toNat * k : Nat) : Int))).map
          (fun i => (mkReq E texts i).texts.map g)).flatten
      = texts.map g := by
    rw [List.map_map]
    have hmaps : ((fun i => (mkReq E texts i).texts.map g) ∘
          fun k : Nat => ((E.batch_size.toNat * k : Nat) : Int))
        = (List.map g) ∘ (fun k => (texts.drop (E.batch_size.toNat * k)).take
            E.batch_size.toNat) := by
      funext k
      simp only [Function.comp]
      rw [mkReq_natCast E texts k hB0]
    rw [hmaps, ← List.map_map, ← List.map_flatten]
    have : (List.range (numChunks texts.length E.batch_size.toNat)).map
          (fun k => (texts.drop (E.batch_size.toNat * k)).take E.batch_size.toNat)
        = chunkList E.batch_size.toNat texts := rfl
    rw [this, flatten_chunkList E.batch_size.toNat hBn texts]
  rw [hres]

/-- The chunk loop stops at the first failing client call: the calls before
it all succeeded, the failing error is propagated unmodified wrapped as a
`clientError`, and no accumulated vectors are returned. -/
theorem embedChunks_error {ε α : Type} (E : VoyageAIEmbeddings)
    (client : EmbedRequest → Except ε (List α)) (texts : List String)
    (e : ε) :
    ∀ (idxs₁ : List Int) (i : Int) (idxs₂ : List Int)
      (trace : List EmbedRequest) (acc : List α),
    (∀ j ∈ idxs₁, ∃ vs, client (mkReq E texts j) = Except.ok vs) →
    client (mkReq E texts i) = Except.error e →
    embedChunks E client texts (idxs₁ ++ i :: idxs₂) trace acc
      = (Except.error (EmbedError.clientError e),
         trace ++ (idxs₁ ++ [i]).map (mkReq E texts)) := by
  intro idxs₁
  induction idxs₁ with
  | nil =>
    intro i idxs₂ trace acc hok hfail
    simp only [List.nil_append, embedChunks, hfail]
    simp
  | cons j rest ih =>
    intro i idxs₂ trace acc hok hfail
    obtain ⟨vs, hvs⟩ := hok j (List.mem_cons_self j rest)
    simp only [List.cons_append, embedChunks, hvs]
    simp only [List.append_eq]
    rw [ih i idxs₂ _ _ (fun j' hj' => hok j' (List.mem_cons_of_mem j hj')) hfail]
    simp [List.append_assoc]

/-- The chunk loop never produces an `importError`: its only error source
is the client, whose failures are wrapped as `clientError`. -/
theorem embedChunks_no_import {ε α : Type} (E : VoyageAIEmbeddings)
    (client : EmbedRequest → Except ε (List α)) (texts : List String)
    (m : String) :
    ∀ (idxs : List Int) (trace : List EmbedRequest) (acc : List α),
    (embedChunks E client texts idxs trace acc).1
      ≠ Except.error (EmbedError.importError m) := by
  intro idxs
  induction idxs with
  | nil => intro trace acc; simp [embedChunks]
  | cons i rest ih =>
    intro trace acc
    simp only [embedChunks]
    cases client (mkReq E texts i) with
    | error e => simp
    | ok vs => exact ih _ _

theorem aembedChunks_no_import {ε α : Type} (E : VoyageAIEmbeddings)
    (aclient : EmbedRequest → Except ε (List α)) (texts : List String)
    (m : String) :
    ∀ (idxs : List Int) (trace : List EmbedRequest) (acc : List α),
    (aembedChunks E aclient texts idxs trace acc).1
      ≠ Except.error (EmbedError.importError m) := by
  intro idxs
  induction idxs with
  | nil => intro trace acc; simp [aembedChunks]
  | cons i rest ih =>
    intro trace acc
    simp only [aembedChunks]
    cases aclient (mkReq E texts i) with
    | error e => simp
    | ok vs => exact ih _ _

/-- The async chunk loop is the same sequential recursion as the blocking
one: when the two client bindings agree on every request, the loops agree
on result and trace. -/
theorem aembedChunks_eq_embedChunks {ε α : Type} (E : VoyageAIEmbeddings)
    (client aclient : EmbedRequest → Except ε (List α)) (texts : List String)
    (hsame : ∀ r, aclient r = client r) :
    ∀ (idxs : List Int) (trace : List EmbedRequest) (acc : List α),
    aembedChunks E aclient texts idxs trace acc
      = embedChunks E client texts idxs trace acc := by
  intro idxs
  induction idxs with
  | nil => intro trace acc; rfl
  | cons i rest ih =>
    intro trace acc
    simp only [aembedChunks, embedChunks, hsame]
    cases client (mkReq E texts i) with
    | error e => rfl
    | ok vs => exact ih _ _

/-- The chunk loop does not depend on the `show_progress_bar` field. -/
theorem embedChunks_spb {ε α : Type} (E : VoyageAIEmbeddings) (b₁ b₂ : Bool)
    (client : EmbedRequest → Except ε (List α)) (texts : List String) :
    ∀ (idxs : List Int) (trace : List EmbedRequest) (acc : List α),
    embedChunks { E with show_progress_bar := b₁ } client texts idxs trace acc
      = embedChunks { E with show_progress_bar := b₂ } client texts idxs
          trace acc := by
  intro idxs
  induction idxs with
  | nil => intro trace acc; rfl
  | cons i rest ih =>
    intro trace acc
    have hreq : mkReq { E with show_progress_bar := b₁ } texts i
        = mkReq { E with show_progress_bar := b₂ } texts i := rfl
    simp only [embedChunks, hreq]
    cases client (mkReq { E with show_progress_bar := b₂ } texts i) with
    | error e => rfl
    | ok vs => exact ih _ _

/-- Under a nonzero batch size combined with available progress rendering
(or progress disabled), `get_batch_iterator` never raises `ImportError`. -/
theorem get_batch_iterator_no_import {ε : Type} (E : VoyageAIEmbeddings)
    (tqA : Bool) (texts : List String)
    (hpb : E.show_progress_bar = false ∨ tqA = true) (m : String) :
    (get_batch_iterator E tqA texts : Except (EmbedError ε) (List Int))
      ≠ Except.error (EmbedError.importError m) := by
  have hmatch : ∀ r : Except String (List Int),
      (match r with
       | Except.error msg =>
         (Except.error (EmbedError.valueError msg)
           : Except (EmbedError ε) (List Int))
       | Except.ok l => Except.ok l)
        ≠ Except.error (EmbedError.importError m) := by
    intro r
    cases r with
    | error msg => simp
    | ok l => simp
  unfold get_batch_iterator
  rcases hpb with h | h
  · rw [h]
    simp only [Bool.false_eq_true, if_false]
    exact hmatch _
  · rw [h]
    by_cases hsp : E.show_progress_bar
    · simp only [hsp, if_true]
      exact hmatch _
    · simp only [hsp, Bool.false_eq_true, if_false]
      exact hmatch _

/-- `get_batch_iterator` with `batch_size = 0` surfaces the `ValueError`
of `range(0, len(texts), 0)` (when progress rendering does not fail
first). -/
theorem get_batch_iterator_zero {ε : Type} (E : VoyageAIEmbeddings)
    (tqA : Bool) (texts : List String) (hB : E.batch_size = 0)
    (hpb : E.show_progress_bar = false ∨ tqA = true) :
    (get_batch_iterator E tqA texts : Except (EmbedError ε) (List Int))
      = Except.error
          (EmbedError.valueError "range() arg 3 must not be zero") := by
  have hrange : pyRange 0 (texts.length : Int) E.batch_size
      = Except.error "range() arg 3 must not be zero" := by
    unfold pyRange
    rw [if_pos hB]
  unfold get_batch_iterator
  rw [hrange]
  rcases hpb with h | h
  · rw [h]
    simp
  · rw [h]
    by_cases hsp : E.show_progress_bar <;> simp [hsp]

/-- `get_batch_iterator` with a negative batch size yields an empty index
list: `range(0, n, step)` with `step < 0` and `n ≥ 0` is empty. -/
theorem get_batch_iterator_neg {ε : Type} (E : VoyageAIEmbeddings)
    (tqA : Bool) (texts : List String) (hB : E.batch_size < 0)
    (hpb : E.show_progress_bar = false ∨ tqA = true) :
    (get_batch_iterator E tqA texts : Except (EmbedError ε) (List Int))
      = Except.ok [] := by
  have hne : E.batch_size ≠ 0 := by omega
  have hlen : pyRangeLen 0 (texts.length : Int) E.batch_size = 0 := by
    unfold pyRangeLen
    rw [if_neg (by omega)]
    apply Nat.div_eq_of_lt
    omega
  have hrange : pyRange 0 (texts.length : Int) E.batch_size
      = Except.ok [] := by
    unfold pyRange
    rw [if_neg hne, hlen]
    rfl
  unfold get_batch_iterator
  rw [hrange]
  rcases hpb with h | h
  · rw [h]
    simp
  · rw [h]
    by_cases hsp : E.show_progress_bar <;> simp [hsp]

/-- `embed_documents` never surfaces an `importError` when progress
reporting is disabled or tqdm is available. -/
theorem embed_documents_no_import {ε α : Type} (E : VoyageAIEmbeddings)
    (client : EmbedRequest → Except ε (List α)) (tqA : Bool)
    (texts : List String)
    (hpb : E.show_progress_bar = false ∨ tqA = true) (m : String) :
    (embed_documents E client tqA texts).1
      ≠ Except.error (EmbedError.importError m) := by
  cases hit : (get_batch_iterator E tqA texts
      : Except (EmbedError ε) (List Int)) with
  | error e =>
    rw [embed_documents_err_iter E client tqA texts e hit]
    intro hcontra
    simp only at hcontra
    have he : e = EmbedError.importError m := by
      injection hcontra
    rw [he] at hit
    exact get_batch_iterator_no_import E tqA texts hpb m hit
  | ok idxs =>
    rw [embed_documents_ok_iter E client tqA texts idxs hit]
    exact embedChunks_no_import E client texts m idxs [] []

theorem aembed_documents_no_import {ε α : Type} (E : VoyageAIEmbeddings)
    (aclient : EmbedRequest → Except ε (List α)) (tqA : Bool)
    (texts : List String)
    (hpb : E.show_progress_bar = false ∨ tqA = true) (m : String) :
    (aembed_documents E aclient tqA texts).1
      ≠ Except.error (EmbedError.importError m) := by
  cases hit : (get_batch_iterator E tqA texts
      : Except (EmbedError ε) (List Int)) with
  | error e =>
    rw [aembed_documents_err_iter E aclient tqA texts e hit]
    intro hcontra
    simp only at hcontra
    have he : e = EmbedError.importError m := by
      injection hcontra
    rw [he] at hit
    exact get_batch_iterator_no_import E tqA texts hpb m hit
  | ok idxs =>
    rw [aembed_documents_ok_iter E aclient tqA texts idxs hit]
    exact aembedChunks_no_import E aclient texts m idxs [] []

/-- With `show_progress_bar` enabled and tqdm unavailable,
`get_batch_iterator` raises the `ImportError` before constructing the
range. -/
theorem get_batch_iterator_import_error {ε : Type} (E : VoyageAIEmbeddings)
    (texts : List String) (hsp : E.show_progress_bar = true) :
    (get_batch_iterator E false texts : Except (EmbedError ε) (List Int))
      = Except.error (EmbedError.importError tqdmMsg) := by
  unfold get_batch_iterator
  rw [hsp]
  simp

/-! The claim theorems. -/

/-- C1: for every list of `N` texts and every positive batch size `B`
fixed at construction, `embed_documents` partitions the texts into the
contiguous chunks `texts[i : i+B]` in original order, issues exactly
`⌈N/B⌉ = (N + B - 1) / B` remote calls — one per chunk, in chunk order
(the trace equals `chunkReqs`) — and returns the concatenation of the
per-chunk vector sequences: under a pointwise remote stub `g` the result
is `texts.map g`, which has length `N` and whose entry `i` is derived from
`texts[i]` for every `i`. -/
theorem embed_documents_batches_in_order {ε α : Type}
    (E : VoyageAIEmbeddings) (g : String → α) (tqA : Bool)
    (texts : List String) (hB : 1 ≤ E.batch_size)
    (hpb : E.show_progress_bar = false ∨ tqA = true) :
    embed_documents E
        (fun r => (Except.ok (r.texts.map g) : Except ε (List α))) tqA texts
      = (Except.ok (texts.map g), chunkReqs E texts) ∧
    (chunkReqs E texts).length
      = (texts.length + E.batch_size.toNat - 1) / E.batch_size.toNat ∧
    (chunkReqs E texts).map EmbedRequest.texts
      = chunkList E.batch_size.toNat texts ∧
    (chunkList E.batch_size.toNat texts).flatten = texts ∧
    (texts.map g).length = texts.length ∧
    ∀ i : Nat, (texts.map g)[i]? = (texts[i]?).map g := by
  refine ⟨embed_documents_pointwise E g tqA texts hB hpb,
          chunkReqs_length E texts,
          map_texts_chunkReqs E texts,
          flatten_chunkList E.batch_size.toNat (by omega) texts,
          List.length_map texts g,
          fun i => ?_⟩
  rw [List.getElem?_map]

/-- Witness for C1: `B = 2`, `texts = ["a", "bb", "ccc"]`, pointwise stub
`String.length`; two chunk calls, result `[1, 2, 3]` in order. -/
theorem embed_documents_batches_in_order_witness :
    (1 : Int) ≤ (2 : Int) ∧
    embed_documents { model := "m", batch_size := 2 }
        (fun r => (Except.ok (r.texts.map String.length)
          : Except Unit (List Nat))) false ["a", "bb", "ccc"]
      = (Except.ok [1, 2, 3],
         [{ texts := ["a", "bb"], model := "m", input_type := "document",
            truncation := none },
          { texts := ["ccc"], model := "m", input_type := "document",
            truncation := none }]) := by
  constructor
  · decide
  · have h : embed_documents { model := "m", batch_size := 2 }
        (fun r => (Except.ok (r.texts.map String.length)
          : Except Unit (List Nat))) false ["a", "bb", "ccc"]
        = (Except.ok (["a", "bb", "ccc"].map String.length),
           chunkReqs { model := "m", batch_size := 2 } ["a", "bb", "ccc"]) :=
      (embed_documents_batches_in_order { model := "m", batch_size := 2 }
        String.length false ["a", "bb", "ccc"] (by decide) (Or.inl rfl)).1
    rw [h]
    rfl

/-- C7: `embed_documents` applied to the empty list returns an empty
result and issues zero remote calls (empty trace). -/
theorem embed_documents_empty_input {ε α : Type} (E : VoyageAIEmbeddings)
    (client : EmbedRequest → Except ε (List α)) (tqA : Bool)
    (hB : 1 ≤ E.batch_size)
    (hpb : E.show_progress_bar = false ∨ tqA = true) :
    embed_documents E client tqA [] = (Except.ok [], []) := by
  rw [embed_documents_ok_iter E client tqA [] _
        (get_batch_iterator_pos E tqA [] hB hpb)]
  have h0 : numChunks ([] : List String).length E.batch_size.toNat = 0 :=
    numChunks_zero _ (by omega)
  rw [h0]
  rfl

/-- Witness for C7 at `B = 2`. -/
theorem embed_documents_empty_input_witness :
    (1 : Int) ≤ (2 : Int) ∧
    embed_documents { model := "m", batch_size := 2 }
        (fun r => (Except.ok (r.texts.map String.length)
          : Except Unit (List Nat))) false []
      = (Except.ok [], []) :=
  ⟨by decide,
   embed_documents_empty_input { model := "m", batch_size := 2 }
     (fun r => (Except.ok (r.texts.map String.length)
       : Except Unit (List Nat))) false (by decide) (Or.inl rfl)⟩

/-- C8: when tqdm is available, the output of `embed_documents` with
`show_progress_bar` enabled is identical — result and issued requests —
to its output with `show_progress_bar` disabled: progress reporting is
purely observational. -/
theorem show_progress_bar_observational {ε α : Type}
    (E : VoyageAIEmbeddings) (client : EmbedRequest → Except ε (List α))
    (texts : List String) :
    embed_documents { E with show_progress_bar := true } client true texts
      = embed_documents { E with show_progress_bar := false } client true
          texts := by
  have hit : (get_batch_iterator { E with show_progress_bar := true } true
        texts : Except (EmbedError ε) (List Int))
      = get_batch_iterator { E with show_progress_bar := false } true
          texts := by
    unfold get_batch_iterator
    simp
  cases h : (get_batch_iterator { E with show_progress_bar := false } true
      texts : Except (EmbedError ε) (List Int)) with
  | error e =>
    rw [embed_documents_err_iter _ client true texts e (hit.trans h),
        embed_documents_err_iter _ client true texts e h]
  | ok idxs =>
    rw [embed_documents_ok_iter _ client true texts idxs (hit.trans h),
        embed_documents_ok_iter _ client true texts idxs h]
    exact embedChunks_spb E true false client texts idxs [] []

/-- C9: with `show_progress_bar` enabled and tqdm unavailable, both
`embed_documents` and `aembed_documents` raise the `ImportError` at call
time, before any remote call is issued (empty trace); when tqdm is
available or progress reporting is disabled, no `ImportError` is ever
surfaced. -/
theorem show_progress_bar_dependency {ε α : Type} (E : VoyageAIEmbeddings)
    (client aclient : EmbedRequest → Except ε (List α))
    (texts : List String) :
    (E.show_progress_bar = true →
      embed_documents E client false texts
          = (Except.error (EmbedError.importError tqdmMsg), []) ∧
      aembed_documents E aclient false texts
          = (Except.error (EmbedError.importError tqdmMsg), [])) ∧
    (∀ tqA : Bool, (E.show_progress_bar = false ∨ tqA = true) →
      ∀ m : String,
      (embed_documents E client tqA texts).1
          ≠ Except.error (EmbedError.importError m) ∧
      (aembed_documents E aclient tqA texts).1
          ≠ Except.error (EmbedError.importError m)) := by
  constructor
  · intro hsp
    exact ⟨embed_documents_err_iter E client false texts _
             (get_batch_iterator_import_error E texts hsp),
           aembed_documents_err_iter E aclient false texts _
             (get_batch_iterator_import_error E texts hsp)⟩
  · intro tqA hpb m
    exact ⟨embed_documents_no_import E client tqA texts hpb m,
           aembed_documents_no_import E aclient tqA texts hpb m⟩

/-- Witness for C9: progress enabled, tqdm unavailable, one text; the
`ImportError` is raised with an empty trace. -/
theorem show_progress_bar_dependency_witness :
    ({ model := "m", batch_size := 2, show_progress_bar := true }
        : VoyageAIEmbeddings).show_progress_bar = true ∧
    embed_documents
        { model := "m", batch_size := 2, show_progress_bar := true }
        (fun r => (Except.ok (r.texts.map String.length)
          : Except Unit (List Nat))) false ["a"]
      = (Except.error (EmbedError.importError tqdmMsg), []) :=
  ⟨rfl,
   ((show_progress_bar_dependency
       { model := "m", batch_size := 2, show_progress_bar := true }
       (fun r => (Except.ok (r.texts.map String.length)
         : Except Unit (List Nat)))
       (fun r => (Except.ok (r.texts.map String.length)
         : Except Unit (List Nat))) ["a"]).1 rfl).1⟩

/-- C10: the positive-batch-size precondition is necessary.  With
`batch_size = 0` the `range` construction raises a `ValueError` before any
remote call; with a negative `batch_size` the index range is empty, so
`embed_documents` returns `[]` and issues zero calls; hence for every
non-empty input and non-positive batch size the result-length invariant
`len(result) = len(texts)` fails. -/
theorem batch_size_nonpositive {ε α : Type} (E : VoyageAIEmbeddings)
    (client : EmbedRequest → Except ε (List α)) (tqA : Bool)
    (texts : List String)
    (hpb : E.show_progress_bar = false ∨ tqA = true) :
    (E.batch_size = 0 → texts ≠ [] →
      embed_documents E client tqA texts
        = (Except.error
            (EmbedError.valueError "range() arg 3 must not be zero"), [])) ∧
    (E.batch_size < 0 →
      embed_documents E client tqA texts = (Except.ok [], [])) ∧
    (E.batch_size ≤ 0 → texts ≠ [] → ∀ vs : List α,
      (embed_documents E client tqA texts).1 = Except.ok vs →
      vs.length ≠ texts.length) := by
  refine ⟨?_, ?_, ?_⟩
  · intro hB _
    exact embed_documents_err_iter E client tqA texts _
      (get_batch_iterator_zero E tqA texts hB hpb)
  · intro hB
    rw [embed_documents_ok_iter E client tqA texts []
          (get_batch_iterator_neg E tqA texts hB hpb)]
    rfl
  · intro hB hne vs hvs
    by_cases h0 : E.batch_size = 0
    · rw [embed_documents_err_iter E client tqA texts _
            (get_batch_iterator_zero E tqA texts h0 hpb)] at hvs
      simp at hvs
    · have hneg : E.batch_size < 0 := by omega
      rw [embed_documents_ok_iter E client tqA texts []
            (get_batch_iterator_neg E tqA texts hneg hpb)] at hvs
      simp only [embedChunks] at hvs
      have hnil : vs = [] := by
        injection hvs with h
        exact h.symm
      rw [hnil]
      intro hcontra
      exact hne (List.eq_nil_of_length_eq_zero hcontra.symm)

/-- Witness for C10: `batch_size = 0`, `texts = ["a"]` raises the
`ValueError` of `range` with no remote call issued. -/
theorem batch_size_nonpositive_witness :
    (({ model := "m", batch_size := 0 } : VoyageAIEmbeddings).show_progress_bar
        = false ∨ false = true) ∧
    ({ model := "m", batch_size := 0 } : VoyageAIEmbeddings).batch_size = 0 ∧
    (["a"] : List String) ≠ [] ∧
    embed_documents { model := "m", batch_size := 0 }
        (fun r => (Except.ok (r.texts.map String.length)
          : Except Unit (List Nat))) false ["a"]
      = (Except.error
          (EmbedError.valueError "range() arg 3 must not be zero"), []) :=
  ⟨Or.inl rfl, rfl, by decide,
   (batch_size_nonpositive { model := "m", batch_size := 0 }
     (fun r => (Except.ok (r.texts.map String.length)
       : Except Unit (List Nat))) false ["a"] (Or.inl rfl)).1 rfl
     (by decide)⟩

/-- C2 counterexample: the claim fails on the code because `embed_query`
issues `input_type="query"` while `embed_documents` issues
`input_type="document"`.  With a deterministic mode-sensitive stub
(vector `1` for query requests, `0` for document requests),
`embed_query "a"` returns `1` while `embed_documents ["a"]` returns
`[0]`, so `embed_query text ≠ embed_documents [text] !! 0`. -/
theorem embed_query_ne_embed_documents_head :
    embed_query { model := "m", batch_size := 7 }
        (fun r => (Except.ok (r.texts.map
            (fun _ => if r.input_type = "query" then 1 else 0))
          : Except Unit (List Nat))) "a"
      = Except.ok 1 ∧
    (embed_documents { model := "m", batch_size := 7 }
        (fun r => (Except.ok (r.texts.map
            (fun _ => if r.input_type = "query" then 1 else 0))
          : Except Unit (List Nat))) false ["a"]).1
      = Except.ok [0] ∧
    (1 : Nat) ≠ 0 :=
  ⟨rfl, rfl, by decide⟩

/-- C2 amended: `embed_query text` is the degenerate one-element,
one-chunk case of the batch operation and returns the same vector as
`embed_documents [text]` — for every remote stub whose response to the
single-element request does not depend on the mode flag (`embed_query`
sends `input_type="query"` while `embed_documents` sends
`input_type="document"`, so mode-sensitive services can distinguish
them; see the counterexample). -/
theorem embed_query_degenerate_batch {ε α : Type} (E : VoyageAIEmbeddings)
    (client : EmbedRequest → Except ε (List α)) (text : String) (v : α)
    (tqA : Bool) (hB : 1 ≤ E.batch_size)
    (hpb : E.show_progress_bar = false ∨ tqA = true)
    (hq : client { texts := [text], model := E.model,
                   input_type := "query", truncation := E.truncation }
        = Except.ok [v])
    (hmode : client { texts := [text], model := E.model,
                      input_type := "document",
                      truncation := E.truncation }
        = client { texts := [text], model := E.model,
                   input_type := "query", truncation := E.truncation }) :
    embed_query E client text = Except.ok v ∧
    (embed_documents E client tqA [text]).1 = Except.ok [v] := by
  constructor
  · unfold embed_query
    rw [hq]
  · rw [embed_documents_ok_iter E client tqA [text] _
          (get_batch_iterator_pos E tqA [text] hB hpb)]
    have h1 : numChunks ([text] : List String).length E.batch_size.toNat
        = 1 := by
      unfold numChunks
      simp only [List.length_singleton]
      have he : 1 + E.batch_size.toNat - 1 = E.batch_size.toNat := by omega
      rw [he, Nat.div_self (by omega)]
    rw [h1]
    have h2 : (List.range 1).map
        (fun k => ((E.batch_size.toNat * k : Nat) : Int)) = [(0 : Int)] := by
      have hr1 : List.range 1 = [0] := rfl
      rw [hr1, List.map_cons, List.map_nil, Nat.mul_zero]
      rfl
    rw [h2]
    have hs : pySlice [text] (0 : Int) ((0 : Int) + E.batch_size)
        = [text] := by
      unfold pySlice
      have ht : ((0 : Int)).toNat = 0 := rfl
      rw [ht, List.drop_zero]
      apply List.take_of_length_le
      simp only [List.length_singleton]
      omega
    have hreq : mkReq E [text] (0 : Int)
        = { texts := [text], model := E.model, input_type := "document",
            truncation := E.truncation } := by
      unfold mkReq
      rw [hs]
    have hclient : client (mkReq E [text] (0 : Int)) = Except.ok [v] := by
      rw [hreq, hmode, hq]
    simp only [embedChunks, hclient]
    rfl

/-- Witness for C2 (amended) with a mode-insensitive constant stub. -/
theorem embed_query_degenerate_batch_witness :
    (1 : Int) ≤ (3 : Int) ∧
    embed_query { model := "m", batch_size := 3 }
        (fun r => (Except.ok (r.texts.map (fun _ => 5))
          : Except Unit (List Nat))) "t"
      = Except.ok 5 ∧
    (embed_documents { model := "m", batch_size := 3 }
        (fun r => (Except.ok (r.texts.map (fun _ => 5))
          : Except Unit (List Nat))) false ["t"]).1
      = Except.ok [5] := by
  have h := embed_query_degenerate_batch { model := "m", batch_size := 3 }
    (fun r => (Except.ok (r.texts.map (fun _ => (5 : Nat)))
      : Except Unit (List Nat))) "t" (5 : Nat) false (by decide)
    (Or.inl rfl) rfl rfl
  exact ⟨by decide, h.1, h.2⟩

/-- C3: if the remote call for a chunk fails while the calls for all
earlier chunks succeed, the whole `embed_documents` invocation fails with
that same error propagated unmodified (wrapped as `clientError`, no retry,
no catching): no partial result built from the earlier chunks is returned,
and the trace ends at the failing chunk. -/
theorem embed_documents_error_propagation {ε α : Type}
    (E : VoyageAIEmbeddings) (client : EmbedRequest → Except ε (List α))
    (tqA : Bool) (texts : List String) (e : ε)
    (rs₁ rs₂ : List EmbedRequest) (rf : EmbedRequest)
    (hB : 1 ≤ E.batch_size)
    (hpb : E.show_progress_bar = false ∨ tqA = true)
    (hsplit : chunkReqs E texts = rs₁ ++ rf :: rs₂)
    (hok : ∀ r ∈ rs₁, ∃ vs, client r = Except.ok vs)
    (hfail : client rf = Except.error e) :
    embed_documents E client tqA texts
      = (Except.error (EmbedError.clientError e), rs₁ ++ [rf]) := by
  rw [embed_documents_ok_iter E client tqA texts _
        (get_batch_iterator_pos E tqA texts hB hpb)]
  have hmap : ((List.range (numChunks texts.length E.batch_size.toNat)).map
      (fun k => ((E.batch_size.toNat * k : Nat) : Int))).map (mkReq E texts)
      = rs₁ ++ rf :: rs₂ := by
    rw [map_mkReq_range E texts (by omega)]
    exact hsplit
  rw [List.map_eq_append_iff] at hmap
  obtain ⟨l₁, l₂, hidxs, h₁, h₂⟩ := hmap
  rw [List.map_eq_cons_iff] at h₂
  obtain ⟨i, l₂t, hl₂, hi, hrest⟩ := h₂
  have hok2 : ∀ j ∈ l₁, ∃ vs, client (mkReq E texts j) = Except.ok vs := by
    intro j hj
    apply hok
    rw [← h₁]
    exact List.mem_map_of_mem _ hj
  have hfail2 : client (mkReq E texts i) = Except.error e := by
    rw [hi]
    exact hfail
  rw [hidxs, hl₂,
      embedChunks_error E client texts e l₁ i l₂t [] [] hok2 hfail2]
  rw [List.nil_append, List.map_append, h₁]
  simp [hi]

/-- Witness for C3: three texts, batch size 2, a stub failing on the
second chunk `["c"]`; the first chunk's success does not leak into the
result. -/
theorem embed_documents_error_propagation_witness :
    (1 : Int) ≤ (2 : Int) ∧
    embed_documents { model := "m", batch_size := 2 }
        (fun r => if r.texts = ["c"]
                  then (Except.error 7 : Except Nat (List Nat))
                  else Except.ok (r.texts.map (fun _ => 0)))
        false ["a", "b", "c"]
      = (Except.error (EmbedError.clientError 7),
         [{ texts := ["a", "b"], model := "m", input_type := "document",
            truncation := none },
          { texts := ["c"], model := "m", input_type := "document",
            truncation := none }]) := by
  constructor
  · decide
  · refine embed_documents_error_propagation { model := "m", batch_size := 2 }
      (fun r => if r.texts = ["c"]
                then (Except.error 7 : Except Nat (List Nat))
                else Except.ok (r.texts.map (fun _ => 0)))
      false ["a", "b", "c"] 7
      [{ texts := ["a", "b"], model := "m", input_type := "document",
         truncation := none }] []
      { texts := ["c"], model := "m", input_type := "document",
        truncation := none }
      (by decide) (Or.inl rfl) rfl ?_ rfl
    intro r hr
    rw [List.mem_singleton] at hr
    subst hr
    exact ⟨[0, 0], rfl⟩

/-- C4: with deterministic blocking and async client bindings that return
the same vectors for the same request, `aembed_documents` produces a pair
— result sequence and issued-request trace — identical to
`embed_documents`: same chunk partition, same sequential dispatch order
(the shared trace lists the chunk requests one after another, each loop
iteration completing before the next is issued). -/
theorem aembed_documents_eq_embed_documents {ε α : Type}
    (E : VoyageAIEmbeddings)
    (client aclient : EmbedRequest → Except ε (List α)) (tqA : Bool)
    (texts : List String) (hsame : ∀ r, aclient r = client r) :
    aembed_documents E aclient tqA texts
      = embed_documents E client tqA texts := by
  cases hit : (get_batch_iterator E tqA texts
      : Except (EmbedError ε) (List Int)) with
  | error e =>
    rw [aembed_documents_err_iter E aclient tqA texts e hit,
        embed_documents_err_iter E client tqA texts e hit]
  | ok idxs =>
    rw [aembed_documents_ok_iter E aclient tqA texts idxs hit,
        embed_documents_ok_iter E client tqA texts idxs hit]
    exact aembedChunks_eq_embedChunks E client aclient texts hsame idxs [] []

/-- Witness for C4 with identical blocking and async stubs. -/
theorem aembed_documents_eq_embed_documents_witness :
    (∀ r : EmbedRequest,
      (fun r' => (Except.ok (r'.texts.map String.length)
        : Except Unit (List Nat))) r
        = (fun r' => (Except.ok (r'.texts.map String.length)
          : Except Unit (List Nat))) r) ∧
    aembed_documents { model := "m", batch_size := 2 }
        (fun r => (Except.ok (r.texts.map String.length)
          : Except Unit (List Nat))) false ["a", "bb", "ccc"]
      = embed_documents { model := "m", batch_size := 2 }
        (fun r => (Except.ok (r.texts.map String.length)
          : Except Unit (List Nat))) false ["a", "bb", "ccc"] :=
  ⟨fun _ => rfl,
   aembed_documents_eq_embed_documents { model := "m", batch_size := 2 }
     _ _ false ["a", "bb", "ccc"] (fun _ => rfl)⟩

/-- C5: when no `batch_size` is supplied at construction, the default is
72 exactly for the model names "voyage-2" and "voyage-02" and 7 for every
other model name (including an absent model); an explicitly supplied batch
size is kept unchanged. -/
theorem default_values_batch_size :
    (∀ (m : Option String) (b : Int), default_values m (some b) = some b) ∧
    default_values (some "voyage-2") none = some 72 ∧
    default_values (some "voyage-02") none = some 72 ∧
    (∀ m : String, m ≠ "voyage-2" → m ≠ "voyage-02" →
      default_values (some m) none = some 7) ∧
    default_values none none = some 7 := by
  refine ⟨fun m b => rfl, rfl, rfl, fun m h1 h2 => ?_, rfl⟩
  simp [default_values, h1, h2]

/-- Witness for C5 at the non-listed model name "voyage-3". -/
theorem default_values_batch_size_witness :
    "voyage-3" ≠ "voyage-2" ∧ "voyage-3" ≠ "voyage-02" ∧
    default_values (some "voyage-3") none = some 7 :=
  ⟨by decide, by decide,
   default_values_batch_size.2.2.2.1 "voyage-3" (by decide) (by decide)⟩

end LangchainVoyageAI

namespace LangchainAI21

/-- C6 counterexample: the resolution order is not "explicit argument if
given, else environment, else default" for every combination: Python `or`
keeps the explicit argument only when truthy.  An explicit
`timeout_sec = 0` is overridden by the environment value `17`, an explicit
`api_key = ""` is overridden by the environment value `"env-key"`, and
`num_retries` gets no environment fallback or hard-coded default at all
(it stays `None`). -/
theorem ai21_resolution_counterexample :
    resolve_timeout_sec (some 0) (some 17) = 17 ∧ (17 : ℚ) ≠ 0 ∧
    resolve_api_key (some "") (some "env-key") = "env-key" ∧
    "env-key" ≠ "" ∧
    resolve_num_retries none = none :=
  ⟨rfl, by norm_num, rfl, by decide, rfl⟩

/-- C6 amended: for `api_key`, `api_host` and `timeout_sec` the effective
value is the explicit argument when it is given and truthy (non-empty
string, nonzero number), else the environment value (an empty-string
environment value counts as absent for the string options), else the
hard-coded default (`""`, `"https://api.ai21.com"`, `300`); `num_retries`
is not resolved at all and keeps the explicitly passed value, possibly
absent. -/
theorem ai21_resolution_order :
    (∀ (s : String) (env : Option String), s ≠ "" →
      resolve_api_key (some s) env = s) ∧
    (∀ (x : Option String) (e : String), (x = none ∨ x = some "") →
      e ≠ "" → resolve_api_key x (some e) = e) ∧
    (∀ x env : Option String, (x = none ∨ x = some "") →
      (env = none ∨ env = some "") → resolve_api_key x env = "") ∧
    (∀ (s : String) (env : Option String), s ≠ "" →
      resolve_api_host (some s) env = s) ∧
    (∀ (x : Option String) (e : String), (x = none ∨ x = some "") →
      e ≠ "" → resolve_api_host x (some e) = e) ∧
    (∀ x env : Option String, (x = none ∨ x = some "") →
      (env = none ∨ env = some "") →
      resolve_api_host x env = "https://api.ai21.com") ∧
    (∀ (t : ℚ) (env : Option ℚ), t ≠ 0 →
      resolve_timeout_sec (some t) env = t) ∧
    (∀ (x : Option ℚ) (e : ℚ), (x = none ∨ x = some 0) →
      resolve_timeout_sec x (some e) = e) ∧
    (∀ x : Option ℚ, (x = none ∨ x = some 0) →
      resolve_timeout_sec x none = 300) ∧
    (∀ x : Option Int, resolve_num_retries x = x) := by
  refine ⟨?_, ?_, ?_, ?_, ?_, ?_, ?_, ?_, ?_, fun x => rfl⟩
  · intro s env h
    simp [resolve_api_key, strOr, h]
  · intro x e hx he
    rcases hx with h | h <;> subst h <;>
      simp [resolve_api_key, strOr, he]
  · intro x env hx henv
    rcases hx with h | h <;> rcases henv with h' | h' <;> subst h <;>
      subst h' <;> simp [resolve_api_key, strOr]
  · intro s env h
    simp [resolve_api_host, strOr, h]
  · intro x e hx he
    rcases hx with h | h <;> subst h <;>
      simp [resolve_api_host, strOr, he]
  · intro x env hx henv
    rcases hx with h | h <;> rcases henv with h' | h' <;> subst h <;>
      subst h' <;> simp [resolve_api_host, strOr]
  · intro t env h
    simp [resolve_timeout_sec, ratOr, h]
  · intro x e hx
    rcases hx with h | h <;> subst h <;>
      simp [resolve_timeout_sec, ratOr]
  · intro x hx
    rcases hx with h | h <;> subst h <;>
      simp [resolve_timeout_sec, ratOr, _DEFAULT_TIMEOUT_SEC]

/-- Witness for C6 (amended): a truthy explicit `api_key` wins over the
environment. -/
theorem ai21_resolution_order_witness :
    "sk-1" ≠ "" ∧ resolve_api_key (some "sk-1") (some "env-key") = "sk-1" :=
  ⟨by decide, ai21_resolution_order.1 "sk-1" (some "env-key") (by decide)⟩

end LangchainAI21
